import Mathlib

/-!
Shallow embedding of `src/sfm/obj_file_io.py`: a Python-object-to-single-file
I/O framework with `_dump`, `_safe_dump`, `_load` and the decorator bindings
`dump_func`, `safe_dump_func`, `load_func`.

Modelling choices, each traceable to the source:
* A file is a byte sequence; the filesystem is an association list from path
  strings to byte sequences (`FS`).
* The `dumper_func` / `loader_func` arguments can be any Python value.  The
  only inspection the source performs on them is `inspect.isfunction`, which
  is true exactly for plain Python functions (not builtins, bound methods,
  classes or `functools.partial` objects, even though those are callable).
  `FuncArg` therefore distinguishes a plain function (`fn`), a callable that
  is not a plain function (`callableNonFunction`), and a non-callable value
  (`notCallable`); the two callable constructors carry the call semantics.
* A Python function call either returns or raises: it is modelled as an
  `Except PyError` value.  `PyError.typeError` models the `TypeError` raised
  by the `inspect.isfunction` checks, `PyError.valueError` the `ValueError`
  raised by `_load` on a missing path, `PyError.zlibError` the `zlib.error`
  raised by `zlib.decompress` on an invalid stream, and `PyError.raised`
  any exception thrown by a caller-supplied codec function.
* `zlib.compress` / `zlib.decompress` are an external library; the engine
  treats them as opaque.  They are a parameter (`Zlib`), with `decompress`
  partial since it can raise on streams `compress` did not produce.
* Logging (`prt_console`), file writes, reads and renames are recorded in an
  event trace so that claims about instrumentation and about which I/O
  happened can be stated.  `time.clock()` only feeds the logged message, so
  the elapsed time is elided from the message text.
-/

namespace ObjFileModel

/-- A byte sequence (Python `bytes`). -/
abbrev Bytes := List Nat

/-- A raised Python exception, as classified by the spec's error taxonomy. -/
inductive PyError where
  /-- `TypeError`, raised by the `inspect.isfunction` checks
      (the spec's ConfigurationError). -/
  | typeError (msg : String)
  /-- `ValueError`, raised by `_load` when the path does not exist
      (the spec's NotFoundError). -/
  | valueError (msg : String)
  /-- `zlib.error`, raised by `zlib.decompress` on an invalid stream
      (a DecodeError in the spec's taxonomy). -/
  | zlibError
  /-- Any exception raised by a caller-supplied codec function. -/
  | raised (msg : String)
deriving DecidableEq, Repr

/-- The filesystem: an association list from absolute paths to file bytes. -/
abbrev FS := List (String × Bytes)

/-- Look up the bytes stored at a path (`None` when the path does not exist:
    `os.path.exists` is `(fsGet fs p).isSome`). -/
def fsGet : FS → String → Option Bytes
  | [], _ => none
  | (q, b) :: rest, p => if q = p then some b else fsGet rest p

/-- Remove every entry at a path. -/
def fsDel : FS → String → FS
  | [], _ => []
  | (q, b) :: rest, p => if q = p then fsDel rest p else (q, b) :: fsDel rest p

/-- `open(p, "wb"); f.write(b)`: store exactly `b` at `p`, replacing any
    previous content. -/
def fsSet (fs : FS) (p : String) (b : Bytes) : FS :=
  (p, b) :: fsDel fs p

/-- `shutil.move(src, dst)`: rename `src` onto `dst`, silently overwriting
    `dst`.  (In every use in the source `src` exists; the `none` branch is
    unreachable there.) -/
def fsRename (fs : FS) (src dst : String) : FS :=
  match fsGet fs src with
  | some b => fsDel (fsSet fs dst b) src
  | none => fs

/-- A Python value passed as `dumper_func` / `loader_func`.  `α → β` is the
    call semantics of a callable; `inspect.isfunction` distinguishes the
    constructors. -/
inductive FuncArg (α β : Type) where
  /-- A plain Python function (`types.FunctionType`): `inspect.isfunction`
      returns `True`. -/
  | fn (f : α → Except PyError β)
  /-- A callable that is not a plain function (builtin, bound method, class,
      `functools.partial`, ...): `inspect.isfunction` returns `False`. -/
  | callableNonFunction (f : α → Except PyError β)
  /-- A non-callable value. -/
  | notCallable

/-- `inspect.isfunction`: true exactly for plain Python functions. -/
def FuncArg.isfunction : FuncArg α β → Bool
  | .fn _ => true
  | _ => false

/-- Whether the value is callable at all (strictly wider than
    `FuncArg.isfunction`). -/
def FuncArg.isCallable : FuncArg α β → Bool
  | .notCallable => false
  | _ => true

/-- The external `zlib` codec used by the compress/decompress stage.
    `decompress` returns `none` when `zlib.decompress` would raise
    `zlib.error` on an invalid stream. -/
structure Zlib where
  compress : Bytes → Bytes
  decompress : Bytes → Option Bytes

/-- One observable effect of a call: a logged console line, a full file
    read, a full file write, or a rename. -/
inductive Event where
  | log (msg : String)
  | readFile (p : String)
  | writeFile (p : String) (b : Bytes)
  | renameFile (src dst : String)
deriving DecidableEq, Repr

/-- Whether the event is a logged console line. -/
def Event.isLog : Event → Bool
  | .log _ => true
  | _ => false

/-- Whether the event is a file read. -/
def Event.isRead : Event → Bool
  | .readFile _ => true
  | _ => false

/-- `prt_console(message, verbose)`: log the message only when `verbose`. -/
def prt_console (message : String) (verbose : Bool) : List Event :=
  if verbose then [.log message] else []

/-- Message of the `TypeError` raised by `_dump` (line 105). -/
def dumperTypeMsg : String :=
  "dumper_func has to be a function take object as input and return binary!"

/-- Message of the `TypeError` raised by `_load` (line 189). -/
def loaderTypeMsg : String :=
  "loader_func has to be a function take binary as input and return an object!"

/-- Start notice of `_dump` (line 108). -/
def dumpStartMsg (abspath : String) : String :=
  "Dump to " ++ abspath ++ " ..."

/-- Skip notice of `_dump` (lines 111-114). -/
def skipMsg : String :=
  "    Stop! File exists and overwrite is not allowed"

/-- Completion notice (lines 126 and 205); the elapsed seconds that
    `time.clock()` feeds into the text are elided. -/
def completeMsg : String :=
  "    Complete! Elapse sec."

/-- Start notice of `_load` (line 192). -/
def loadStartMsg (abspath : String) : String :=
  "Load from " ++ abspath ++ " ..."

/-- Message of the `ValueError` raised by `_load` on a missing path
    (line 194). -/
def notExistMsg (abspath : String) : String :=
  abspath ++ " does not exist."

/-- Lines 117-128 of `_dump`: encode, optionally compress, write, log
    completion, return the written bytes.  Reached when the existence /
    overwrite guard did not return early; `t0` is the trace so far. -/
def dumpWrite (obj : α) (abspath : String) (f : α → Except PyError Bytes)
    (compress : Bool) (verbose : Bool) (z : Zlib) (fs : FS)
    (t0 : List Event) :
    Except PyError (Option Bytes) × FS × List Event :=
  match f obj with
  | .error e => (.error e, fs, t0)
  | .ok b0 =>
    let b := if compress then z.compress b0 else b0
    (.ok (some b), fsSet fs abspath b,
      t0 ++ [.writeFile abspath b] ++ prt_console completeMsg verbose)

/-- `_dump(obj, abspath, dumper_func, compress, overwrite, verbose)`
    (lines 77-128).  Returns the Python return value (`none` models the
    bare `return` of the skip branch, `some b` the returned bytes) or the
    raised exception, together with the filesystem afterwards and the trace
    of effects. -/
def _dump (obj : α) (abspath : String) (dumper_func : FuncArg α Bytes)
    (compress : Bool) (overwrite : Bool) (verbose : Bool) (z : Zlib)
    (fs : FS) :
    Except PyError (Option Bytes) × FS × List Event :=
  match dumper_func with
  | .fn f =>
    let t0 := prt_console (dumpStartMsg abspath) verbose
    if (fsGet fs abspath).isSome then
      if !overwrite then
        (.ok none, fs, t0 ++ prt_console skipMsg verbose)
      else
        dumpWrite obj abspath f compress verbose z fs t0
    else
      dumpWrite obj abspath f compress verbose z fs t0
  | _ => (.error (.typeError dumperTypeMsg), fs, [])

/-- `_safe_dump(obj, abspath, dumper_func, compress, verbose)`
    (lines 131-165): dump to `abspath + ".tmp"` with `overwrite=True`,
    then `shutil.move` the temp file onto `abspath`. -/
def _safe_dump (obj : α) (abspath : String) (dumper_func : FuncArg α Bytes)
    (compress : Bool) (verbose : Bool) (z : Zlib) (fs : FS) :
    Except PyError (Option Bytes) × FS × List Event :=
  let abspath_temp := abspath ++ ".tmp"
  match _dump obj abspath_temp dumper_func compress true verbose z fs with
  | (.error e, fs1, t1) => (.error e, fs1, t1)
  | (.ok b, fs1, t1) =>
    (.ok b, fsRename fs1 abspath_temp abspath,
      t1 ++ [.renameFile abspath_temp abspath])

/-- `_load(abspath, loader_func, decompress, verbose)` (lines 168-207).
    Returns the decoded object or the raised exception, with the trace of
    effects (`_load` never mutates the filesystem). -/
def _load (abspath : String) (loader_func : FuncArg Bytes α)
    (decompress : Bool) (verbose : Bool) (z : Zlib) (fs : FS) :
    Except PyError α × List Event :=
  match loader_func with
  | .fn f =>
    let t0 := prt_console (loadStartMsg abspath) verbose
    match fsGet fs abspath with
    | none => (.error (.valueError (notExistMsg abspath)), t0)
    | some raw =>
      let t1 := t0 ++ [.readFile abspath]
      match (if decompress then z.decompress raw else some raw) with
      | none => (.error .zlibError, t1)
      | some b =>
        match f b with
        | .error e => (.error e, t1)
        | .ok obj => (.ok obj, t1 ++ prt_console completeMsg verbose)
  | _ => (.error (.typeError loaderTypeMsg), [])

/-- The wrapper produced by the `dump_func` decorator: it closes over the
    decorated function and forwards every call to `_dump`. -/
structure BoundDump (α : Type) where
  dumper_func : FuncArg α Bytes

/-- `dump_func(dumper_func)` (lines 210-216): builds the wrapper.  The
    decorator body performs no validation, so binding always returns
    normally; `Except` records that it could in principle raise. -/
def dump_func (dumper_func : FuncArg α Bytes) :
    Except PyError (BoundDump α) :=
  .ok ⟨dumper_func⟩

/-- Calling the wrapper returned by `dump_func`. -/
def BoundDump.call (w : BoundDump α) (obj : α) (abspath : String)
    (compress overwrite verbose : Bool) (z : Zlib) (fs : FS) :
    Except PyError (Option Bytes) × FS × List Event :=
  _dump obj abspath w.dumper_func compress overwrite verbose z fs

/-- The wrapper produced by the `safe_dump_func` decorator. -/
structure BoundSafeDump (α : Type) where
  dumper_func : FuncArg α Bytes

/-- `safe_dump_func(dumper_func)` (lines 219-225): builds the wrapper
    without any validation. -/
def safe_dump_func (dumper_func : FuncArg α Bytes) :
    Except PyError (BoundSafeDump α) :=
  .ok ⟨dumper_func⟩

/-- Calling the wrapper returned by `safe_dump_func`. -/
def BoundSafeDump.call (w : BoundSafeDump α) (obj : α) (abspath : String)
    (compress verbose : Bool) (z : Zlib) (fs : FS) :
    Except PyError (Option Bytes) × FS × List Event :=
  _safe_dump obj abspath w.dumper_func compress verbose z fs

/-- The wrapper produced by the `load_func` decorator. -/
structure BoundLoad (α : Type) where
  loader_func : FuncArg Bytes α

/-- `load_func(loader_func)` (lines 228-234): builds the wrapper without
    any validation. -/
def load_func (loader_func : FuncArg Bytes α) :
    Except PyError (BoundLoad α) :=
  .ok ⟨loader_func⟩

/-- Calling the wrapper returned by `load_func`. -/
def BoundLoad.call (w : BoundLoad α) (abspath : String)
    (decompress verbose : Bool) (z : Zlib) (fs : FS) :
    Except PyError α × List Event :=
  _load abspath w.loader_func decompress verbose z fs

/-!
Micro-step model of `_safe_dump`'s filesystem effects, used for the
atomicity claim.  The interruption points of the Python code are:
`open(tmp, "wb")` truncates the temp file, each byte of `f.write(b)` may be
the last one that reaches the file, and `shutil.move` is a single atomic
rename.  A run interrupted after `k` micro-steps has executed exactly
`(safeDumpSteps abspath b).take k`.
-/

/-- One atomic filesystem micro-step of `_safe_dump`. -/
inductive MicroStep where
  /-- `open(p, "wb")` truncates `p` to empty. -/
  | truncateFile (p : String)
  /-- One byte of `f.write` reaching the file. -/
  | writeByte (p : String) (c : Nat)
  /-- `shutil.move(src, dst)`: atomic rename. -/
  | moveFile (src dst : String)

/-- Apply a micro-step to the filesystem. -/
def applyStep (fs : FS) : MicroStep → FS
  | .truncateFile p => fsSet fs p []
  | .writeByte p c => fsSet fs p (((fsGet fs p).getD []) ++ [c])
  | .moveFile src dst => fsRename fs src dst

/-- Run a list of micro-steps. -/
def runSteps (fs : FS) (steps : List MicroStep) : FS :=
  steps.foldl applyStep fs

/-- The complete micro-step sequence of `_safe_dump(obj, abspath, ...)` once
    the dumper produced the (possibly compressed) output `b`: truncate the
    temp file, write `b` byte by byte, rename the temp file onto the
    target. -/
def safeDumpSteps (abspath : String) (b : Bytes) : List MicroStep :=
  MicroStep.truncateFile (abspath ++ ".tmp") ::
    (b.map (MicroStep.writeByte (abspath ++ ".tmp")) ++
      [MicroStep.moveFile (abspath ++ ".tmp") abspath])

/-! Filesystem lemmas. -/

theorem fsGet_fsDel_ne (fs : FS) (p q : String) (h : q ≠ p) :
    fsGet (fsDel fs p) q = fsGet fs q := by
  induction fs with
  | nil => rfl
  | cons e rest ih =>
    obtain ⟨r, b⟩ := e
    by_cases hr : r = p
    · subst hr
      simp [fsDel, fsGet, Ne.symm h, ih]
    · by_cases hq : r = q
      · subst hq
        simp [fsDel, fsGet, hr]
      · simp [fsDel, fsGet, hr, hq, ih]

theorem fsGet_fsDel_same (fs : FS) (p : String) :
    fsGet (fsDel fs p) p = none := by
  induction fs with
  | nil => rfl
  | cons e rest ih =>
    obtain ⟨r, b⟩ := e
    by_cases hr : r = p
    · simp [fsDel, hr, ih]
    · simp [fsDel, fsGet, hr, ih]

theorem fsGet_fsSet_same (fs : FS) (p : String) (b : Bytes) :
    fsGet (fsSet fs p b) p = some b := by
  simp [fsSet, fsGet]

theorem fsGet_fsSet_ne (fs : FS) (p q : String) (b : Bytes) (h : q ≠ p) :
    fsGet (fsSet fs p b) q = fsGet fs q := by
  simp [fsSet, fsGet, Ne.symm h, fsGet_fsDel_ne fs p q h]

theorem ne_append_tmp (p : String) : p ≠ p ++ ".tmp" := by
  intro h
  have h2 := congrArg String.length h
  simp [String.length_append] at h2
  exact absurd h2 (by decide)

/-- Effect of the byte-write micro-steps on paths other than the target. -/
theorem runSteps_writes_ne (bytes : Bytes) (tmp q : String) (hq : q ≠ tmp) :
    ∀ fs : FS,
      fsGet (runSteps fs (bytes.map (MicroStep.writeByte tmp))) q =
        fsGet fs q := by
  induction bytes with
  | nil => intro fs; rfl
  | cons c rest ih =>
    intro fs
    have step :
        runSteps fs ((c :: rest).map (MicroStep.writeByte tmp)) =
          runSteps (applyStep fs (MicroStep.writeByte tmp c))
            (rest.map (MicroStep.writeByte tmp)) := rfl
    rw [step, ih]
    exact fsGet_fsSet_ne fs tmp q _ hq

/-- Effect of the byte-write micro-steps on the target path: the bytes are
    appended in order. -/
theorem runSteps_writes_same (bytes : Bytes) (tmp : String) :
    ∀ (fs : FS) (old : Bytes), fsGet fs tmp = some old →
      fsGet (runSteps fs (bytes.map (MicroStep.writeByte tmp))) tmp =
        some (old ++ bytes) := by
  induction bytes with
  | nil =>
    intro fs old h
    simpa [runSteps] using h
  | cons c rest ih =>
    intro fs old h
    have step :
        runSteps fs ((c :: rest).map (MicroStep.writeByte tmp)) =
          runSteps (applyStep fs (MicroStep.writeByte tmp c))
            (rest.map (MicroStep.writeByte tmp)) := rfl
    rw [step]
    have hs : fsGet (applyStep fs (MicroStep.writeByte tmp c)) tmp =
        some (old ++ [c]) := by
      have := fsGet_fsSet_same fs tmp (((fsGet fs tmp).getD []) ++ [c])
      simpa [applyStep, h] using this
    rw [ih _ (old ++ [c]) hs]
    simp

/-!
Concrete instances used by witnesses and counterexamples.
-/

/-- A concrete invertible compression pair instantiating `Zlib`: prepend a
    marker byte; decompression accepts exactly the streams that start with
    the marker. -/
def zlibCX : Zlib where
  compress b := 0 :: b
  decompress b :=
    match b with
    | 0 :: r => some r
    | _ => none

/-- The identity codec on byte lists: a plain function whose decode is a
    left inverse of its encode and which never raises. -/
def idCodec : Bytes → Except PyError Bytes := fun b => .ok b

/-- A dump call that is not skipped reduces to the write branch: encoder
    output, compressed iff requested, stored at the target, returned. -/
theorem dump_write_eq {α : Type} (obj : α) (abspath : String)
    (f : α → Except PyError Bytes) (compress overwrite verbose : Bool)
    (z : Zlib) (fs : FS) (b0 : Bytes)
    (henc : f obj = .ok b0)
    (hns : fsGet fs abspath = none ∨ overwrite = true) :
    _dump obj abspath (.fn f) compress overwrite verbose z fs =
      (.ok (some (if compress then z.compress b0 else b0)),
        fsSet fs abspath (if compress then z.compress b0 else b0),
        prt_console (dumpStartMsg abspath) verbose ++
          [.writeFile abspath (if compress then z.compress b0 else b0)] ++
          prt_console completeMsg verbose) := by
  rcases hns with h | h
  · simp [_dump, h, dumpWrite, henc]
  · subst h
    cases hex : (fsGet fs abspath).isSome <;>
      simp [_dump, hex, dumpWrite, henc]

/-- A dump call on an existing target with `overwrite=false` reduces to the
    skip branch. -/
theorem dump_skip_eq {α : Type} (obj : α) (abspath : String)
    (f : α → Except PyError Bytes) (compress verbose : Bool) (z : Zlib)
    (fs : FS)
    (hex : (fsGet fs abspath).isSome = true) :
    _dump obj abspath (.fn f) compress false verbose z fs =
      (.ok none, fs,
        prt_console (dumpStartMsg abspath) verbose ++
          prt_console skipMsg verbose) := by
  simp [_dump, hex]

/-- State after an interruption inside the byte-writing phase: `j` bytes of
    `b` reached the temp file; every other path is untouched. -/
theorem runSteps_safeDump_take_le (abspath : String) (b : Bytes) (fs : FS)
    (j : Nat) (hj : j ≤ b.length) :
    (∀ q, q ≠ abspath ++ ".tmp" →
      fsGet (runSteps fs ((safeDumpSteps abspath b).take (j + 1))) q =
        fsGet fs q) ∧
    fsGet (runSteps fs ((safeDumpSteps abspath b).take (j + 1)))
        (abspath ++ ".tmp") = some (b.take j) := by
  have hsplit : (safeDumpSteps abspath b).take (j + 1) =
      MicroStep.truncateFile (abspath ++ ".tmp") ::
        ((b.take j).map (MicroStep.writeByte (abspath ++ ".tmp"))) := by
    have h1 : ((b.map (MicroStep.writeByte (abspath ++ ".tmp"))) ++
        [MicroStep.moveFile (abspath ++ ".tmp") abspath]).take j =
        (b.map (MicroStep.writeByte (abspath ++ ".tmp"))).take j :=
      List.take_append_of_le_length (by simpa using hj)
    simp only [safeDumpSteps, List.take_succ_cons, h1]
    rw [← List.map_take]
  rw [hsplit]
  have hrun : runSteps fs
      (MicroStep.truncateFile (abspath ++ ".tmp") ::
        ((b.take j).map (MicroStep.writeByte (abspath ++ ".tmp")))) =
      runSteps (fsSet fs (abspath ++ ".tmp") [])
        ((b.take j).map (MicroStep.writeByte (abspath ++ ".tmp"))) := rfl
  rw [hrun]
  constructor
  · intro q hq
    rw [runSteps_writes_ne (b.take j) (abspath ++ ".tmp") q hq]
    exact fsGet_fsSet_ne fs (abspath ++ ".tmp") q [] hq
  · have h := runSteps_writes_same (b.take j) (abspath ++ ".tmp")
      (fsSet fs (abspath ++ ".tmp") []) []
      (fsGet_fsSet_same fs (abspath ++ ".tmp") [])
    simpa using h

/-- State after the full micro-step run: the target holds the new bytes,
    the temp file is gone, every other path is untouched. -/
theorem runSteps_safeDump_full (abspath : String) (b : Bytes) (fs : FS) :
    fsGet (runSteps fs (safeDumpSteps abspath b)) abspath = some b ∧
    fsGet (runSteps fs (safeDumpSteps abspath b)) (abspath ++ ".tmp") =
      none ∧
    (∀ q, q ≠ abspath → q ≠ abspath ++ ".tmp" →
      fsGet (runSteps fs (safeDumpSteps abspath b)) q = fsGet fs q) := by
  have habs := ne_append_tmp abspath
  have hrun : runSteps fs (safeDumpSteps abspath b) =
      applyStep
        (runSteps (fsSet fs (abspath ++ ".tmp") [])
          (b.map (MicroStep.writeByte (abspath ++ ".tmp"))))
        (MicroStep.moveFile (abspath ++ ".tmp") abspath) := by
    simp only [safeDumpSteps, runSteps, List.foldl_cons, List.foldl_append,
      List.foldl_nil]
    rfl
  set fs2 := runSteps (fsSet fs (abspath ++ ".tmp") [])
    (b.map (MicroStep.writeByte (abspath ++ ".tmp"))) with hfs2
  have htmp : fsGet fs2 (abspath ++ ".tmp") = some b := by
    have h := runSteps_writes_same b (abspath ++ ".tmp")
      (fsSet fs (abspath ++ ".tmp") []) []
      (fsGet_fsSet_same fs (abspath ++ ".tmp") [])
    simpa using h
  have hother : ∀ q, q ≠ abspath ++ ".tmp" → fsGet fs2 q = fsGet fs q := by
    intro q hq
    rw [hfs2, runSteps_writes_ne b (abspath ++ ".tmp") q hq]
    exact fsGet_fsSet_ne fs (abspath ++ ".tmp") q [] hq
  have hmove : applyStep fs2 (MicroStep.moveFile (abspath ++ ".tmp") abspath) =
      fsDel (fsSet fs2 abspath b) (abspath ++ ".tmp") := by
    simp [applyStep, fsRename, htmp]
  rw [hrun, hmove]
  refine ⟨?_, ?_, ?_⟩
  · rw [fsGet_fsDel_ne _ _ _ habs]
    exact fsGet_fsSet_same fs2 abspath b
  · exact fsGet_fsDel_same _ _
  · intro q hq1 hq2
    rw [fsGet_fsDel_ne _ _ _ hq2, fsGet_fsSet_ne fs2 abspath q b hq1]
    exact hother q hq2

/-- The non-log part of a trace: what a call did to the filesystem,
    ignoring instrumentation. -/
def stripLogs (t : List Event) : List Event :=
  t.filter (fun e => !e.isLog)

theorem stripLogs_prt_console (m : String) (v : Bool) :
    stripLogs (prt_console m v) = [] := by
  cases v <;> simp [stripLogs, prt_console, Event.isLog]

theorem stripLogs_append (a b : List Event) :
    stripLogs (a ++ b) = stripLogs a ++ stripLogs b := by
  simp [stripLogs]

end ObjFileModel

namespace ObjFileModel

/-- C3: a dump call that is not skipped (target absent, or overwrite true)
    stores at the target exactly the encoder output, compressed iff
    `compress` is true, fully replacing any previous content, and returns
    exactly the written byte sequence. -/
theorem C3_dump_writes_encoder_output {α : Type} (obj : α) (abspath : String)
    (f : α → Except PyError Bytes) (compress overwrite verbose : Bool)
    (z : Zlib) (fs : FS) (b0 : Bytes)
    (henc : f obj = .ok b0)
    (hns : fsGet fs abspath = none ∨ overwrite = true) :
    _dump obj abspath (.fn f) compress overwrite verbose z fs =
      (.ok (some (if compress then z.compress b0 else b0)),
        fsSet fs abspath (if compress then z.compress b0 else b0),
        prt_console (dumpStartMsg abspath) verbose ++
          [.writeFile abspath (if compress then z.compress b0 else b0)] ++
          prt_console completeMsg verbose) ∧
    fsGet (_dump obj abspath (.fn f) compress overwrite verbose z fs).2.1
        abspath = some (if compress then z.compress b0 else b0) := by
  have hw := dump_write_eq obj abspath f compress overwrite verbose z fs b0
    henc hns
  refine ⟨hw, ?_⟩
  rw [hw]
  exact fsGet_fsSet_same fs abspath _

/-- Witness for C3 at a concrete input. -/
theorem C3_witness :
    idCodec [7] = .ok [7] ∧
    (fsGet ([] : FS) "f" = none ∨ (false : Bool) = true) ∧
    _dump [7] "f" (.fn idCodec) true false false zlibCX [] =
      (.ok (some [0, 7]), [("f", [0, 7])], [.writeFile "f" [0, 7]]) := by
  refine ⟨rfl, Or.inl rfl, ?_⟩
  have h := C3_dump_writes_encoder_output [7] "f" idCodec true false false
    zlibCX [] [7] rfl (Or.inl rfl)
  simpa [zlibCX, fsSet, fsDel, prt_console] using h.1

/-- C4: a dump call on an existing target with `overwrite=false` performs no
    filesystem mutation (the filesystem is returned unchanged and the trace
    holds only log lines) and returns the skip result (`None`), not an
    error. -/
theorem C4_dump_skip_no_mutation {α : Type} (obj : α) (abspath : String)
    (f : α → Except PyError Bytes) (compress verbose : Bool) (z : Zlib)
    (fs : FS)
    (hex : (fsGet fs abspath).isSome = true) :
    _dump obj abspath (.fn f) compress false verbose z fs =
      (.ok none, fs,
        prt_console (dumpStartMsg abspath) verbose ++
          prt_console skipMsg verbose) ∧
    ((_dump obj abspath (.fn f) compress false verbose z fs).2.2).filter
        (fun e => !e.isLog) = [] := by
  have hw := dump_skip_eq obj abspath f compress verbose z fs hex
  refine ⟨hw, ?_⟩
  rw [hw]
  cases verbose <;> simp [prt_console, Event.isLog]

/-- Witness for C4 at a concrete input. -/
theorem C4_witness :
    (fsGet [("f", [9])] "f").isSome = true ∧
    _dump [7] "f" (.fn idCodec) true false true zlibCX [("f", [9])] =
      (.ok none, [("f", [9])],
        [.log (dumpStartMsg "f"), .log skipMsg]) := by
  refine ⟨rfl, ?_⟩
  have h := C4_dump_skip_no_mutation [7] "f" idCodec true true zlibCX
    [("f", [9])] rfl
  simpa [prt_console] using h.1

/-- C5: loading a nonexistent path (with a valid bound codec) fails with the
    not-found error and performs no file read. -/
theorem C5_load_notfound_no_read {α : Type} (abspath : String)
    (f : Bytes → Except PyError α) (decompress verbose : Bool) (z : Zlib)
    (fs : FS)
    (hne : fsGet fs abspath = none) :
    _load abspath (.fn f) decompress verbose z fs =
      (.error (.valueError (notExistMsg abspath)),
        prt_console (loadStartMsg abspath) verbose) ∧
    ((_load abspath (.fn f) decompress verbose z fs).2).filter
        Event.isRead = [] := by
  have hw : _load abspath (.fn f) decompress verbose z fs =
      (.error (.valueError (notExistMsg abspath)),
        prt_console (loadStartMsg abspath) verbose) := by
    simp [_load, hne]
  refine ⟨hw, ?_⟩
  rw [hw]
  cases verbose <;> simp [prt_console, Event.isRead]

/-- Witness for C5 at a concrete input. -/
theorem C5_witness :
    fsGet ([] : FS) "f" = none ∧
    _load "f" (.fn idCodec) true true zlibCX [] =
      (.error (.valueError (notExistMsg "f")), [.log (loadStartMsg "f")]) := by
  refine ⟨rfl, ?_⟩
  have h := C5_load_notfound_no_read "f" idCodec true true zlibCX [] rfl
  simpa [prt_console] using h.1

/-- C8: on an existing target with `overwrite=false` the skip outcome is a
    quiet success: the call returns normally (`Except.ok`, no exception),
    exactly the same outcome constructor as a successful write (which
    returns `Except.ok` as well); the two differ only in the returned
    payload (`None` versus the written bytes). -/
theorem C8_skip_is_quiet_success {α : Type} (obj : α) (abspath : String)
    (f : α → Except PyError Bytes) (compress verbose : Bool) (z : Zlib)
    (fs : FS) (b0 : Bytes)
    (hex : (fsGet fs abspath).isSome = true)
    (henc : f obj = .ok b0) :
    (_dump obj abspath (.fn f) compress false verbose z fs).1 = .ok none ∧
    (_dump obj abspath (.fn f) compress true verbose z fs).1 =
      .ok (some (if compress then z.compress b0 else b0)) ∧
    Except.isOk (_dump obj abspath (.fn f) compress false verbose z fs).1 =
      Except.isOk (_dump obj abspath (.fn f) compress true verbose z fs).1 := by
  have hskip := dump_skip_eq obj abspath f compress verbose z fs hex
  have hwrite := dump_write_eq obj abspath f compress true verbose z fs b0
    henc (Or.inr rfl)
  refine ⟨?_, ?_, ?_⟩
  · rw [hskip]
  · rw [hwrite]
  · rw [hskip, hwrite]
    rfl

/-- Witness for C8 at a concrete input. -/
theorem C8_witness :
    (fsGet [("f", [9])] "f").isSome = true ∧
    idCodec [7] = .ok [7] ∧
    (_dump [7] "f" (.fn idCodec) true false false zlibCX [("f", [9])]).1 =
      .ok none ∧
    (_dump [7] "f" (.fn idCodec) true true false zlibCX [("f", [9])]).1 =
      .ok (some [0, 7]) := by
  refine ⟨rfl, rfl, ?_, ?_⟩
  · exact (C8_skip_is_quiet_success [7] "f" idCodec true false zlibCX
      [("f", [9])] [7] rfl rfl).1
  · have h := (C8_skip_is_quiet_success [7] "f" idCodec true false zlibCX
      [("f", [9])] [7] rfl rfl).2.1
    simpa [zlibCX] using h

/-- C2: for a codec whose decode is a left inverse of encode at the dumped
    value, a dump that actually writes followed by a load with the matching
    compress/decompress flag returns the original value. -/
theorem C2_dump_load_roundtrip {α : Type} (v : α) (p : String)
    (enc : α → Except PyError Bytes) (dec : Bytes → Except PyError α)
    (compress ov vb vb' : Bool) (z : Zlib) (fs : FS) (b0 : Bytes)
    (henc : enc v = .ok b0) (hdec : dec b0 = .ok v)
    (hz : z.decompress (z.compress b0) = some b0)
    (hns : fsGet fs p = none ∨ ov = true) :
    (_load p (.fn dec) compress vb' z
        (_dump v p (.fn enc) compress ov vb z fs).2.1).1 = .ok v := by
  have hw := dump_write_eq v p enc compress ov vb z fs b0 henc hns
  rw [hw]
  cases compress with
  | false => simp [_load, fsGet_fsSet_same, hdec]
  | true => simp [_load, fsGet_fsSet_same, hz, hdec]

/-- Witness for C2 at a concrete input. -/
theorem C2_witness :
    idCodec [7] = .ok [7] ∧
    zlibCX.decompress (zlibCX.compress [7]) = some [7] ∧
    (fsGet ([] : FS) "f" = none ∨ (false : Bool) = true) ∧
    (_load "f" (.fn idCodec) true false zlibCX
        (_dump [7] "f" (.fn idCodec) true false false zlibCX []).2.1).1 =
      .ok [7] :=
  ⟨rfl, rfl, Or.inl rfl,
    C2_dump_load_roundtrip [7] "f" idCodec idCodec true false false false
      zlibCX [] [7] rfl rfl rfl (Or.inl rfl)⟩

/-- C9: the verbose flag never influences the returned result, the raised
    error, or the filesystem effects of dump, safe-dump and load; it only
    adds log lines to the trace.  Stated by comparing the runs with
    `verbose=true` and `verbose=false` of each of the three operations on
    otherwise identical arguments. -/
theorem C9_verbose_side_effect_only {α β : Type} (obj : α) (p : String)
    (d : FuncArg α Bytes) (l : FuncArg Bytes β) (c ov dc : Bool) (z : Zlib)
    (fs : FS) :
    ((_dump obj p d c ov true z fs).1 = (_dump obj p d c ov false z fs).1 ∧
      (_dump obj p d c ov true z fs).2.1 =
        (_dump obj p d c ov false z fs).2.1 ∧
      stripLogs (_dump obj p d c ov true z fs).2.2 =
        stripLogs (_dump obj p d c ov false z fs).2.2) ∧
    ((_safe_dump obj p d c true z fs).1 = (_safe_dump obj p d c false z fs).1 ∧
      (_safe_dump obj p d c true z fs).2.1 =
        (_safe_dump obj p d c false z fs).2.1 ∧
      stripLogs (_safe_dump obj p d c true z fs).2.2 =
        stripLogs (_safe_dump obj p d c false z fs).2.2) ∧
    ((_load p l dc true z fs).1 = (_load p l dc false z fs).1 ∧
      stripLogs (_load p l dc true z fs).2 =
        stripLogs (_load p l dc false z fs).2) := by
  have hdump : ∀ (q : String) (ov' : Bool),
      (_dump obj q d c ov' true z fs).1 = (_dump obj q d c ov' false z fs).1 ∧
      (_dump obj q d c ov' true z fs).2.1 =
        (_dump obj q d c ov' false z fs).2.1 ∧
      stripLogs (_dump obj q d c ov' true z fs).2.2 =
        stripLogs (_dump obj q d c ov' false z fs).2.2 := by
    intro q ov'
    cases d with
    | notCallable => simp [_dump]
    | callableNonFunction g => simp [_dump]
    | fn f =>
      by_cases hex : (fsGet fs q).isSome
      · cases ov' with
        | false =>
          simp [_dump, hex, stripLogs, prt_console, Event.isLog]
        | true =>
          cases hf : f obj with
          | error e =>
            simp [_dump, hex, dumpWrite, hf, stripLogs, prt_console,
              Event.isLog]
          | ok b0 =>
            simp [_dump, hex, dumpWrite, hf, stripLogs, prt_console,
              Event.isLog]
      · cases hf : f obj with
        | error e =>
          simp [_dump, hex, dumpWrite, hf, stripLogs, prt_console,
            Event.isLog]
        | ok b0 =>
          simp [_dump, hex, dumpWrite, hf, stripLogs, prt_console,
            Event.isLog]
  refine ⟨hdump p ov, ?_, ?_⟩
  · obtain ⟨h1, h2, h3⟩ := hdump (p ++ ".tmp") true
    rcases ht : _dump obj (p ++ ".tmp") d c true true z fs with ⟨r1, fs1, t1⟩
    rcases hf : _dump obj (p ++ ".tmp") d c true false z fs with ⟨r2, fs2, t2⟩
    rw [ht, hf] at h1 h2 h3
    simp only at h1 h2 h3
    subst h1
    subst h2
    simp only [stripLogs, Event.isLog] at h3
    cases r1 with
    | error e => simp [_safe_dump, ht, hf, stripLogs, Event.isLog, h3]
    | ok b =>
      simp [_safe_dump, ht, hf, stripLogs, Event.isLog, h3]
  · cases l with
    | notCallable => simp [_load, stripLogs]
    | callableNonFunction g => simp [_load, stripLogs]
    | fn f =>
      cases hx : fsGet fs p with
      | none =>
        simp [_load, hx, stripLogs, prt_console, Event.isLog]
      | some raw =>
        cases hz : (if dc then z.decompress raw else some raw) with
        | none =>
          simp [_load, hx, hz, stripLogs, prt_console, Event.isLog]
        | some b =>
          cases hfb : f b with
          | error e =>
            simp [_load, hx, hz, hfb, stripLogs, prt_console, Event.isLog]
          | ok o =>
            simp [_load, hx, hz, hfb, stripLogs, prt_console, Event.isLog]

/-- C7 counterexample: binding an invalid (non-callable) value through the
    decorators raises nothing — each binding is constructed and returned
    normally — while the first call of the bound operation is what raises
    the configuration error.  This refutes eager bind-time validation. -/
theorem C7_counterexample :
    dump_func (α := Bytes) .notCallable = .ok ⟨.notCallable⟩ ∧
    safe_dump_func (α := Bytes) .notCallable = .ok ⟨.notCallable⟩ ∧
    load_func (α := Bytes) .notCallable = .ok ⟨.notCallable⟩ ∧
    (BoundDump.call ⟨.notCallable⟩ ([7] : Bytes) "f" true false false zlibCX
        []).1 = .error (.typeError dumperTypeMsg) ∧
    (BoundLoad.call (α := Bytes) ⟨.notCallable⟩ "f" true false zlibCX
        []).1 = .error (.typeError loaderTypeMsg) :=
  ⟨rfl, rfl, rfl, rfl, rfl⟩

/-- C7 (amended): the bindings perform no validation and never raise; the
    validity check runs at call time, at the entry of every call of the
    bound operation, before any I/O — an invalid bound function makes the
    call raise the configuration error (TypeError) with the filesystem
    untouched and an empty effect trace. -/
theorem C7_amended_call_time_validation {α β : Type} (g : FuncArg α Bytes)
    (l : FuncArg Bytes β) (obj : α) (p : String) (c ov vb dc : Bool)
    (z : Zlib) (fs : FS)
    (hg : g.isfunction = false) (hl : l.isfunction = false) :
    dump_func g = .ok ⟨g⟩ ∧
    safe_dump_func g = .ok ⟨g⟩ ∧
    load_func l = .ok ⟨l⟩ ∧
    BoundDump.call ⟨g⟩ obj p c ov vb z fs =
      (.error (.typeError dumperTypeMsg), fs, []) ∧
    BoundSafeDump.call ⟨g⟩ obj p c vb z fs =
      (.error (.typeError dumperTypeMsg), fs, []) ∧
    BoundLoad.call ⟨l⟩ p dc vb z fs =
      (.error (.typeError loaderTypeMsg), []) := by
  refine ⟨rfl, rfl, rfl, ?_, ?_, ?_⟩
  · cases g with
    | fn f => exact absurd hg (by simp [FuncArg.isfunction])
    | callableNonFunction f => rfl
    | notCallable => rfl
  · cases g with
    | fn f => exact absurd hg (by simp [FuncArg.isfunction])
    | callableNonFunction f => rfl
    | notCallable => rfl
  · cases l with
    | fn f => exact absurd hl (by simp [FuncArg.isfunction])
    | callableNonFunction f => rfl
    | notCallable => rfl

/-- Witness for the amended C7 at a concrete input: a callable that is not
    a plain function. -/
theorem C7_amended_witness :
    (FuncArg.callableNonFunction (β := Bytes) idCodec).isfunction = false ∧
    dump_func (FuncArg.callableNonFunction (β := Bytes) idCodec) =
      .ok ⟨.callableNonFunction idCodec⟩ ∧
    (BoundDump.call ⟨.callableNonFunction idCodec⟩ ([7] : Bytes) "f" true
        false false zlibCX []).1 = .error (.typeError dumperTypeMsg) := by
  have h := C7_amended_call_time_validation
    (FuncArg.callableNonFunction (β := Bytes) idCodec)
    (FuncArg.callableNonFunction (α := Bytes) (β := Bytes) idCodec)
    [7] "f" true false false true zlibCX [] rfl rfl
  refine ⟨rfl, h.1, ?_⟩
  rw [h.2.2.2.1]

/-- C10: the validity check accepts only plain functions — every callable
    that is not a plain function is rejected with exactly the same
    TypeError as a non-callable, and in `_load` this check fires before the
    path-existence check (a missing path still yields the TypeError, not
    the not-found ValueError, and no read happens). -/
theorem C10_only_plain_functions_accepted {α β : Type} (g : FuncArg α Bytes)
    (l : FuncArg Bytes β) (h : α → Except PyError Bytes) (obj : α)
    (p : String) (c ov vb dc : Bool) (z : Zlib) (fs : FS)
    (hg : g.isfunction = false) (hl : l.isfunction = false)
    (hne : fsGet fs p = none) :
    _dump obj p g c ov vb z fs =
      (.error (.typeError dumperTypeMsg), fs, []) ∧
    _load p l dc vb z fs = (.error (.typeError loaderTypeMsg), []) ∧
    (FuncArg.callableNonFunction (α := α) (β := Bytes) h).isCallable = true ∧
    (FuncArg.callableNonFunction (α := α) (β := Bytes) h).isfunction =
      false := by
  refine ⟨?_, ?_, rfl, rfl⟩
  · cases g with
    | fn f => exact absurd hg (by simp [FuncArg.isfunction])
    | callableNonFunction f => rfl
    | notCallable => rfl
  · cases l with
    | fn f => exact absurd hl (by simp [FuncArg.isfunction])
    | callableNonFunction f => rfl
    | notCallable => rfl

/-- Witness for C10 at a concrete input. -/
theorem C10_witness :
    (FuncArg.callableNonFunction (β := Bytes) idCodec).isfunction = false ∧
    fsGet ([] : FS) "f" = none ∧
    _load "f" (FuncArg.callableNonFunction (α := Bytes) (β := Bytes) idCodec)
        true false zlibCX [] = (.error (.typeError loaderTypeMsg), []) := by
  have h := C10_only_plain_functions_accepted
    (FuncArg.callableNonFunction (β := Bytes) idCodec)
    (FuncArg.callableNonFunction (α := Bytes) (β := Bytes) idCodec)
    idCodec [7] "f" true false false true zlibCX [] rfl rfl rfl
  exact ⟨rfl, rfl, h.2.1⟩

/-- C6 counterexample: with the identity codec (whose decode is a left
    inverse of encode) and an invertible compression pair, dumping with
    `compress=true` and loading with `decompress=false` raises no error at
    all: load hands the compressed bytes to the decoder and returns them as
    the value.  The claim that every flag mismatch raises DecodeError is
    therefore false. -/
theorem C6_counterexample :
    idCodec [7] = .ok [7] ∧
    zlibCX.decompress (zlibCX.compress [7]) = some [7] ∧
    (_load "f" (.fn idCodec) false false zlibCX
        (_dump [7] "f" (.fn idCodec) true true false zlibCX []).2.1).1 =
      .ok [0, 7] :=
  ⟨rfl, rfl, rfl⟩

/-- C6 (amended): with `compress=true` and `decompress=true` the original
    value is recovered.  A flag mismatch is not detected from the bytes and
    does not in general raise DecodeError: with `compress=false` and
    `decompress=true`, load raises DecodeError exactly when the decompressor
    rejects the raw encoded bytes; with `compress=true` and
    `decompress=false`, the compressed bytes are handed directly to the
    decoder, and a decoder that accepts them yields a value with no
    error. -/
theorem C6_amended_flag_semantics {α : Type} (v : α) (p : String)
    (enc : α → Except PyError Bytes) (dec : Bytes → Except PyError α)
    (ov vb vb' : Bool) (z : Zlib) (fs : FS) (b0 : Bytes) (w : α)
    (henc : enc v = .ok b0) (hdec : dec b0 = .ok v)
    (hz : z.decompress (z.compress b0) = some b0)
    (hzraw : z.decompress b0 = none)
    (hdecw : dec (z.compress b0) = .ok w)
    (hns : fsGet fs p = none ∨ ov = true) :
    (_load p (.fn dec) true vb' z
        (_dump v p (.fn enc) true ov vb z fs).2.1).1 = .ok v ∧
    (_load p (.fn dec) true vb' z
        (_dump v p (.fn enc) false ov vb z fs).2.1).1 =
      .error .zlibError ∧
    (_load p (.fn dec) false vb' z
        (_dump v p (.fn enc) true ov vb z fs).2.1).1 = .ok w := by
  have hwT := dump_write_eq v p enc true ov vb z fs b0 henc hns
  have hwF := dump_write_eq v p enc false ov vb z fs b0 henc hns
  refine ⟨?_, ?_, ?_⟩
  · rw [hwT]
    simp [_load, fsGet_fsSet_same, hz, hdec]
  · rw [hwF]
    simp [_load, fsGet_fsSet_same, hzraw]
  · rw [hwT]
    simp [_load, fsGet_fsSet_same, hdecw]

/-- Witness for the amended C6 at a concrete input. -/
theorem C6_amended_witness :
    idCodec [7] = .ok [7] ∧
    zlibCX.decompress (zlibCX.compress [7]) = some [7] ∧
    zlibCX.decompress [7] = none ∧
    idCodec (zlibCX.compress [7]) = .ok [0, 7] ∧
    (_load "f" (.fn idCodec) true false zlibCX
        (_dump [7] "f" (.fn idCodec) true false false zlibCX []).2.1).1 =
      .ok [7] ∧
    (_load "f" (.fn idCodec) true false zlibCX
        (_dump [7] "f" (.fn idCodec) false false false zlibCX []).2.1).1 =
      .error .zlibError ∧
    (_load "f" (.fn idCodec) false false zlibCX
        (_dump [7] "f" (.fn idCodec) true false false zlibCX []).2.1).1 =
      .ok [0, 7] := by
  have h := C6_amended_flag_semantics [7] "f" idCodec idCodec false false
    false zlibCX [] [7] [0, 7] rfl rfl rfl rfl rfl (Or.inl rfl)
  exact ⟨rfl, rfl, rfl, rfl, h.1, h.2.1, h.2.2⟩

/-- C1: safe-dump writes the full output to `abspath ++ ".tmp"` through the
    dump primitive with overwrite forced true and only then renames the temp
    file onto the target (the write event precedes the rename event in the
    trace); in the micro-step interruption model, after any number `k` of
    executed micro-steps the target path holds either its previous content
    or the complete new bytes — never a partial write — and no path other
    than the target and the temp artifact is ever touched.  The full
    micro-step run agrees with `_safe_dump`'s own filesystem result on every
    path. -/
theorem C1_safe_dump_atomic_replace {α : Type} (obj : α) (abspath : String)
    (f : α → Except PyError Bytes) (c vb : Bool) (z : Zlib) (fs : FS)
    (b0 b : Bytes)
    (henc : f obj = .ok b0)
    (hb : b = if c then z.compress b0 else b0) :
    _safe_dump obj abspath (.fn f) c vb z fs =
      (.ok (some b),
        fsRename (fsSet fs (abspath ++ ".tmp") b) (abspath ++ ".tmp")
          abspath,
        prt_console (dumpStartMsg (abspath ++ ".tmp")) vb ++
          [.writeFile (abspath ++ ".tmp") b] ++
          prt_console completeMsg vb ++
          [.renameFile (abspath ++ ".tmp") abspath]) ∧
    (∀ q, fsGet (runSteps fs (safeDumpSteps abspath b)) q =
      fsGet (_safe_dump obj abspath (.fn f) c vb z fs).2.1 q) ∧
    (∀ k, fsGet (runSteps fs ((safeDumpSteps abspath b).take k)) abspath =
        fsGet fs abspath ∨
      fsGet (runSteps fs ((safeDumpSteps abspath b).take k)) abspath =
        some b) ∧
    (∀ k q, q ≠ abspath → q ≠ abspath ++ ".tmp" →
      fsGet (runSteps fs ((safeDumpSteps abspath b).take k)) q =
        fsGet fs q) := by
  have habs := ne_append_tmp abspath
  have hlen : (safeDumpSteps abspath b).length = b.length + 2 := by
    simp [safeDumpSteps]
  have hw := dump_write_eq obj (abspath ++ ".tmp") f c true vb z fs b0 henc
    (Or.inr rfl)
  rw [← hb] at hw
  have hi : _safe_dump obj abspath (.fn f) c vb z fs =
      (.ok (some b),
        fsRename (fsSet fs (abspath ++ ".tmp") b) (abspath ++ ".tmp")
          abspath,
        prt_console (dumpStartMsg (abspath ++ ".tmp")) vb ++
          [.writeFile (abspath ++ ".tmp") b] ++
          prt_console completeMsg vb ++
          [.renameFile (abspath ++ ".tmp") abspath]) := by
    simp [_safe_dump, hw]
  have hfull := runSteps_safeDump_full abspath b fs
  refine ⟨hi, ?_, ?_, ?_⟩
  · intro q
    rw [hi]
    have hmac : fsRename (fsSet fs (abspath ++ ".tmp") b)
        (abspath ++ ".tmp") abspath =
        fsDel (fsSet (fsSet fs (abspath ++ ".tmp") b) abspath b)
          (abspath ++ ".tmp") := by
      simp [fsRename, fsGet_fsSet_same]
    simp only
    rw [hmac]
    by_cases h1 : q = abspath
    · subst h1
      rw [hfull.1, fsGet_fsDel_ne _ _ _ habs, fsGet_fsSet_same]
    · by_cases h2 : q = abspath ++ ".tmp"
      · subst h2
        rw [hfull.2.1, fsGet_fsDel_same]
      · rw [hfull.2.2 q h1 h2, fsGet_fsDel_ne _ _ _ h2,
          fsGet_fsSet_ne _ _ _ _ h1, fsGet_fsSet_ne _ _ _ _ h2]
  · intro k
    cases k with
    | zero => exact Or.inl rfl
    | succ j =>
      by_cases hj : j ≤ b.length
      · exact Or.inl
          ((runSteps_safeDump_take_le abspath b fs j hj).1 abspath habs)
      · right
        have htk : (safeDumpSteps abspath b).take (j + 1) =
            safeDumpSteps abspath b := by
          apply List.take_of_length_le
          rw [hlen]
          omega
        rw [htk]
        exact hfull.1
  · intro k q hq1 hq2
    cases k with
    | zero => rfl
    | succ j =>
      by_cases hj : j ≤ b.length
      · exact (runSteps_safeDump_take_le abspath b fs j hj).1 q hq2
      · have htk : (safeDumpSteps abspath b).take (j + 1) =
            safeDumpSteps abspath b := by
          apply List.take_of_length_le
          rw [hlen]
          omega
        rw [htk]
        exact hfull.2.2 q hq1 hq2

/-- Witness for C1 at a concrete input: dumping `[7]` with compression over
    a target that already holds `[9]`.  After two micro-steps the target
    still holds the old content; after the full run it holds exactly the new
    bytes; the call returns the written bytes. -/
theorem C1_witness :
    idCodec [7] = .ok [7] ∧
    ([0, 7] : Bytes) = (if true then zlibCX.compress [7] else [7]) ∧
    (_safe_dump [7] "f" (.fn idCodec) true false zlibCX [("f", [9])]).1 =
      .ok (some [0, 7]) ∧
    fsGet (runSteps [("f", [9])] ((safeDumpSteps "f" [0, 7]).take 2)) "f" =
      some [9] ∧
    fsGet (runSteps [("f", [9])] (safeDumpSteps "f" [0, 7])) "f" =
      some [0, 7] := by
  have h := C1_safe_dump_atomic_replace [7] "f" idCodec true false zlibCX
    [("f", [9])] [7] [0, 7] rfl rfl
  refine ⟨rfl, rfl, ?_, rfl, rfl⟩
  rw [h.1]

end ObjFileModel
